import Mathlib

/-!
Verification of the credential-pool, retry/backoff, request-buffering and
auth-middleware components of the proxy, shallowly embedded from the Rust
sources (`src/auth.rs`, `src/retry.rs`, `src/read_request_body.rs`).

Conventions of the embedding:
* the `Arc<RwLock<...>>`-guarded pool state becomes a plain value of type
  `KeyPool`, with each lock-protected method an explicit state-passing
  function (each critical section is one atomic step);
* durations are counted in nanoseconds as `Nat`; `u32` arithmetic is `Nat`
  arithmetic with the saturation/wrapping of the source made explicit;
* fallible code returns `Option`/`Except`; a Rust `unwrap` panic is a
  distinguished `CallOutcome.panicked` value;
* an `http::Request` is a record of method, uri, version, header list
  (lowercase names, in iteration order) and body; `http::Version` is coded
  numerically, `11` for the builder default HTTP/1.1.
-/

namespace Proxy

/-! ## Credential pool (`src/auth.rs`, `KeyPool`)

The Rust pool is `Arc<RwLock<(Vec<String>, usize)>>`: a list of keys plus a
cursor. -/

structure KeyPool where
  keys : List String
  cursor : Nat
deriving DecidableEq, Repr

/-- `KeyPool::active_key`: the key at the cursor, or `none` when out of
range (in particular when the pool is empty). -/
def activeKey (s : KeyPool) : Option String :=
  s.keys[s.cursor]?

/-- `KeyPool::remove_active_key` (state part; the returned removed key is
discarded by its only caller `remove_active_key_if_equal`): on a non-empty
pool, remove the element at the cursor, then reset the cursor to 0 when it
is no longer inside the shortened list. On an empty pool, no change.
(`Vec::remove` would panic when `cursor >= len`; such states are never
reached from a valid pool, see `PoolInv`.) -/
def removeActiveKey (s : KeyPool) : KeyPool :=
  if s.keys = [] then s
  else
    let keys := s.keys.eraseIdx s.cursor
    { keys := keys, cursor := if keys.length ≤ s.cursor then 0 else s.cursor }

/-- `KeyPool::shift_active_key`: when more than one key is present, advance
the cursor by one modulo the length; otherwise no change. -/
def shiftActiveKey (s : KeyPool) : KeyPool :=
  if 1 < s.keys.length then { s with cursor := (s.cursor + 1) % s.keys.length }
  else s

/-- `KeyPool::shift_active_key_if_equal`: compare-and-act guard around
`shift_active_key`. -/
def shiftIfEqual (s : KeyPool) (key : Option String) : KeyPool :=
  if activeKey s = key then shiftActiveKey s else s

/-- `KeyPool::remove_active_key_if_equal`: compare-and-act guard around
`remove_active_key`. -/
def removeIfEqual (s : KeyPool) (key : Option String) : KeyPool :=
  if activeKey s = key then removeActiveKey s else s

/-- The operations a client of the pool may issue: `active_key` (peek, a
pure read), `remove_active_key_if_equal` and `shift_active_key_if_equal`. -/
inductive PoolOp where
  | peek : PoolOp
  | removeIf : Option String → PoolOp
  | shiftIf : Option String → PoolOp
deriving DecidableEq, Repr

/-- One pool operation as a state transformer (`peek` does not mutate). -/
def applyOp (s : KeyPool) : PoolOp → KeyPool
  | .peek => s
  | .removeIf k => removeIfEqual s k
  | .shiftIf k => shiftIfEqual s k

/-- A sequence of pool operations, applied left to right. -/
def runOps (s : KeyPool) (ops : List PoolOp) : KeyPool :=
  ops.foldl applyOp s

/-- The pool invariant: the cursor indexes into the key list, or the list
is empty. -/
def PoolInv (s : KeyPool) : Prop :=
  s.keys = [] ∨ s.cursor < s.keys.length

instance (s : KeyPool) : Decidable (PoolInv s) := by
  unfold PoolInv; infer_instance

/-! ## Response inspection (`src/auth.rs`, `ResponseFuture::poll`)

Once the inner future resolves, `ResponseFuture::poll` inspects the result
and updates the pool: status 401 (UNAUTHORIZED) triggers
`remove_active_key_if_equal(cur_key)`, status 429 (TOO_MANY_REQUESTS)
triggers `shift_active_key_if_equal(cur_key)`, every other status and any
transport error (`Err`) leaves the pool alone.  HTTP statuses are embedded
as their numeric codes. -/

def inspectResponse {ε : Type} (s : KeyPool) (curKey : Option String)
    (result : Except ε Nat) : KeyPool :=
  match result with
  | .error _ => s
  | .ok status =>
      if status = 401 then removeIfEqual s curKey
      else if status = 429 then shiftIfEqual s curKey
      else s

/-! ## HTTP requests -/

/-- An `http::Request`: method, uri, version (numeric code of
`http::Version`, `11` = HTTP/1.1 which is the `Request::builder()`
default), the header list in iteration order with lowercase names, and a
body of type `β`.  (`extensions` are not modelled.) -/
structure HttpRequest (β : Type) where
  method : String
  uri : String
  version : Nat
  headers : List (String × String)
  body : β
deriving DecidableEq, Repr

/-- `HeaderMap::get`: the first value stored under a name. -/
def headerGet (name : String) (hs : List (String × String)) : Option String :=
  (hs.find? (fun p => p.1 == name)).map (fun p => p.2)

/-- `HeaderMap::insert`: replace the value under a name (keeping the first
occurrence's position, dropping any further values under the same name),
or append when the name is absent. -/
def headerInsert (name value : String) : List (String × String) → List (String × String)
  | [] => [(name, value)]
  | (k, v) :: rest =>
      if k = name then (name, value) :: rest.filter (fun p => p.1 != name)
      else (k, v) :: headerInsert name value rest

/-- Helper for `splitFirstSpace`: scan the characters, accumulating the
(reversed) first part until the first space; the remainder is the second
part. -/
def splitFirstSpaceAux : List Char → List Char → List String
  | [], acc => [String.mk acc.reverse]
  | c :: cs, acc =>
      if c = ' ' then [String.mk acc.reverse, String.mk cs]
      else splitFirstSpaceAux cs (c :: acc)

/-- `str::splitn(2, ' ')`: split at the first space only, so a value with
no space gives one part and any other value gives exactly two (the second
possibly containing further spaces). -/
def splitFirstSpace (v : String) : List String :=
  splitFirstSpaceAux v.data []

/-! ## Auth middleware (`src/auth.rs`, `Authorize`) -/

/-- `Authorize::extract_api_key`: read the `authorization` header, split it
at the first space; exactly two parts are required, and the second is the
api key.  (`HeaderValue::to_str` failures on non-visible-ASCII values are
outside the `String` model.) -/
def extractApiKey {β : Type} (r : HttpRequest β) : Option String :=
  match headerGet "authorization" r.headers with
  | none => none
  | some v =>
      let parts := splitFirstSpace v
      if parts.length ≠ 2 then none
      else parts[1]?

/-- `Authorize::call`, up to handing the request to the inner service: when
no api key can be extracted from the request, peek the pool and, when a key
is active, insert `Bearer <key>` as the `authorization` header.  Returns
the forwarded request together with the remembered key (`cur_key`) that the
resolved `ResponseFuture` will use for compare-and-act. -/
def authorizeCall {β : Type} (pool : KeyPool) (r : HttpRequest β) :
    HttpRequest β × Option String :=
  match extractApiKey r with
  | some k => (r, some k)
  | none =>
      match activeKey pool with
      | some k =>
          ({ r with headers := headerInsert "authorization" ("Bearer " ++ k) r.headers },
            some k)
      | none => (r, none)

/-! ## Retry policy (`src/retry.rs`, `WithBackoff`)

`WithBackoff { attempts: u32, backoff: B }` implements `tower::retry::Policy`.
`retry` returns `None` ("stop") on a success-status response, `None` once
`attempts == 0`, and otherwise `Some` of the successor state: attempts
decremented by one, backoff advanced (`backoff.next().await`).  The backoff
type stays generic; its `next` is an arbitrary step function `nextB`. -/

structure WithBackoffPolicy (B : Type) where
  attempts : Nat
  backoff : B
deriving DecidableEq, Repr

/-- `StatusCode::is_success`: 2xx, that is 200 ≤ status ≤ 299. -/
def isSuccess (status : Nat) : Bool :=
  decide (200 ≤ status) && decide (status ≤ 299)

/-- `WithBackoff::retry`: the retry decision for one resolved attempt.
`none` means stop (return the result to the caller); `some p` means retry
with successor policy state `p`. -/
def retryDecision {B ε : Type} (nextB : B → B) (p : WithBackoffPolicy B)
    (result : Except ε Nat) : Option (WithBackoffPolicy B) :=
  match result with
  | .ok status =>
      if isSuccess status then none
      else if p.attempts = 0 then none
      else some ⟨p.attempts - 1, nextB p.backoff⟩
  | .error _ =>
      if p.attempts = 0 then none
      else some ⟨p.attempts - 1, nextB p.backoff⟩

/-- `WithBackoff::clone_request`: rebuild the request with
`Request::builder()` (whose parts default to version HTTP/1.1 and empty
headers), copying uri, method, every header whose name is not
`authorization`, and the cloned body.  The original's version is not
copied (nor are extensions, which the model omits). -/
def cloneRequest {β : Type} (r : HttpRequest β) : HttpRequest β :=
  { method := r.method
    uri := r.uri
    version := 11
    headers := r.headers.filter (fun p => p.1 != "authorization")
    body := r.body }

/-! ## Exponential backoff (`src/retry.rs`, `ExponentialBackoff`)

Durations are nanosecond counts.  `Duration` holds `u64` seconds plus
sub-second nanoseconds, so the largest representable duration is
`(2^64 - 1)` seconds and `999999999` nanoseconds; `Duration::checked_mul`
returns `None` past that bound.  The multiplier `2_u32.saturating_pow(i)`
saturates at `u32::MAX = 2^32 - 1`.  The `f64` jitter computation only
enters for a non-zero jitter fraction; its rng-dependent raw value is
abstracted as the `raw` argument, with the code's clamp to `max - base`
kept. -/

def maxDurNanos : Nat := (2 ^ 64 - 1) * 1000000000 + 999999999

/-- `2_u32.saturating_pow i`. -/
def satPow2 (i : Nat) : Nat := Min.min (2 ^ i) (2 ^ 32 - 1)

/-- `Duration::checked_mul` on nanosecond counts. -/
def durCheckedMul (d k : Nat) : Option Nat :=
  if d * k ≤ maxDurNanos then some (d * k) else none

structure ExponentialBackoff where
  min : Nat
  max : Nat
  jitter : Rat
  iterations : Nat
deriving DecidableEq, Repr

/-- `ExponentialBackoff::base`:
`self.min.checked_mul(2_u32.saturating_pow(self.iterations)).unwrap_or(self.max).min(self.max)`. -/
def ExponentialBackoff.base (b : ExponentialBackoff) : Nat :=
  Min.min ((durCheckedMul b.min (satPow2 b.iterations)).getD b.max) b.max

/-- `ExponentialBackoff::jitter`: zero when the jitter fraction is zero;
otherwise the rng-and-float-derived duration `raw`, clamped by the code to
`self.max - base`. -/
def ExponentialBackoff.jitterDur (b : ExponentialBackoff) (raw base : Nat) : Nat :=
  if b.jitter = 0 then 0 else Min.min raw (b.max - base)

/-- The timeout computed by one `ExponentialBackoff::next` call:
`base + jitter(base)`. -/
def ExponentialBackoff.nextTimeout (b : ExponentialBackoff) (raw : Nat) : Nat :=
  b.base + b.jitterDur raw b.base

/-- The state after one `ExponentialBackoff::next` call:
`iterations += 1` on a `u32` (wrapping in release builds). -/
def ExponentialBackoff.nextState (b : ExponentialBackoff) : ExponentialBackoff :=
  { b with iterations := (b.iterations + 1) % 2 ^ 32 }

/-! ## Buffered body (`src/read_request_body.rs`, `ByteBody`) -/

/-- `ByteBody`: an immutable byte buffer (`Arc<Vec<u8>>`); bytes are
modelled as naturals. -/
structure ByteBody where
  data : List Nat
deriving DecidableEq, Repr

/-- `<ByteBody as http_body::Body>::poll_data`: always ready, yielding a
full copy of the buffer; `self` is not modified, and the stream never ends
(`None` is never produced).  The pair is (poll result, state after the
poll). -/
def ByteBody.pollDataStep (b : ByteBody) :
    Option (Except Unit (List Nat)) × ByteBody :=
  (some (Except.ok b.data), b)

/-- `<ByteBody as http_body::Body>::size_hint`:
`SizeHint::with_exact(data.len())`. -/
def ByteBody.sizeHint (b : ByteBody) : Nat := b.data.length

/-- The result of the n-th consecutive `poll_data` call, threading the
state through the polls. -/
def ByteBody.pollN (b : ByteBody) : Nat → Option (Except Unit (List Nat))
  | 0 => b.pollDataStep.1
  | n + 1 => b.pollDataStep.2.pollN n

/-! ## Request buffering (`src/read_request_body.rs`, `ReadRequestBody`) -/

/-- The visible outcome of a service call: either the task panicked, or a
`Result` was returned to the caller. -/
inductive CallOutcome (ε ρ : Type) where
  | panicked : CallOutcome ε ρ
  | returned : Except ε ρ → CallOutcome ε ρ

/-- `ReadRequestBody::call`: await `hyper::body::to_bytes` on the inbound
streaming body (its outcome abstracted as `readResult`), `unwrap` it —
panicking the task on a read error — and otherwise rebuild the request
from the same parts with the buffered `ByteBody` and forward it to the
inner service.  The inbound streaming body carries no further observable
state, so the buffered request is the inbound one with body `()` replaced
by the read bytes. -/
def readRequestBodyCall {ε ρ : Type} (req : HttpRequest Unit)
    (readResult : Except Unit (List Nat))
    (inner : HttpRequest ByteBody → Except ε ρ) : CallOutcome ε ρ :=
  match readResult with
  | .error _ => .panicked
  | .ok bs =>
      .returned (inner { method := req.method, uri := req.uri,
                         version := req.version, headers := req.headers,
                         body := ⟨bs⟩ })

/-! # Theorems -/

/-! ## C1: stale compare-and-act mutations are dropped -/

/-- C1 -- Compare-and-act: a `remove_active_key_if_equal` or
`shift_active_key_if_equal` call whose snapshot differs from the pool's
currently active key (for instance because a concurrent actor rotated or
removed the key the caller observed) leaves the pool, sequence and cursor
alike, completely unchanged. -/
theorem removeIf_shiftIf_stale_snapshot_noop (s : KeyPool) (snap : Option String)
    (h : activeKey s ≠ snap) :
    removeIfEqual s snap = s ∧ shiftIfEqual s snap = s := by
  constructor
  · simp [removeIfEqual, h]
  · simp [shiftIfEqual, h]

/-- Witness for C1 at a concrete pool: active key is "a", stale snapshot
is "b" (a concurrent shift could have produced exactly this situation). -/
theorem removeIf_shiftIf_stale_snapshot_noop_witness :
    removeIfEqual ⟨["a", "b"], 0⟩ (some "b") = ⟨["a", "b"], 0⟩ ∧
      shiftIfEqual ⟨["a", "b"], 0⟩ (some "b") = ⟨["a", "b"], 0⟩ :=
  removeIf_shiftIf_stale_snapshot_noop ⟨["a", "b"], 0⟩ (some "b") (by decide)

/-! ## C2: the pool invariant is preserved by every operation -/

theorem poolInv_removeActiveKey {s : KeyPool} (h : PoolInv s) :
    PoolInv (removeActiveKey s) := by
  rcases h with h | h
  · simp [removeActiveKey, h, PoolInv]
  · have hne : s.keys ≠ [] := by
      intro hnil; rw [hnil] at h; simp at h
    unfold removeActiveKey
    rw [if_neg hne]
    have hlen : (s.keys.eraseIdx s.cursor).length = s.keys.length - 1 := by
      simp [List.length_eraseIdx, h]
    by_cases hc : (s.keys.eraseIdx s.cursor).length ≤ s.cursor
    · rcases Nat.eq_zero_or_pos (s.keys.eraseIdx s.cursor).length with h0 | h0
      · exact Or.inl (List.eq_nil_of_length_eq_zero h0)
      · exact Or.inr (by simpa [hc] using h0)
    · exact Or.inr (by simp [hc]; omega)

theorem poolInv_shiftActiveKey {s : KeyPool} (h : PoolInv s) :
    PoolInv (shiftActiveKey s) := by
  unfold shiftActiveKey
  by_cases hl : 1 < s.keys.length
  · exact Or.inr (by simp [hl]; exact Nat.mod_lt _ (by omega))
  · simpa [hl] using h

theorem poolInv_applyOp {s : KeyPool} (h : PoolInv s) (op : PoolOp) :
    PoolInv (applyOp s op) := by
  cases op with
  | peek => exact h
  | removeIf k =>
      unfold applyOp removeIfEqual
      by_cases hg : activeKey s = k
      · simpa [hg] using poolInv_removeActiveKey h
      · simpa [hg] using h
  | shiftIf k =>
      unfold applyOp shiftIfEqual
      by_cases hg : activeKey s = k
      · simpa [hg] using poolInv_shiftActiveKey h
      · simpa [hg] using h

theorem poolInv_runOps {s : KeyPool} (h : PoolInv s) (ops : List PoolOp) :
    PoolInv (runOps s ops) := by
  induction ops generalizing s with
  | nil => exact h
  | cons op rest ih => exact ih (poolInv_applyOp h op)

/-- C2 -- Invariant: in every pool reachable from an initial pool (any key
list, cursor 0) by peek / remove-if / shift-if operations, the cursor is a
valid index into the key sequence, or the sequence is empty and peek
(`active_key`) returns `none`. -/
theorem runOps_cursor_valid_or_empty (keys : List String) (ops : List PoolOp) :
    (runOps ⟨keys, 0⟩ ops).cursor < (runOps ⟨keys, 0⟩ ops).keys.length ∨
      ((runOps ⟨keys, 0⟩ ops).keys = [] ∧ activeKey (runOps ⟨keys, 0⟩ ops) = none) := by
  have hinit : PoolInv ⟨keys, 0⟩ := by
    cases keys with
    | nil => exact Or.inl rfl
    | cons a l => exact Or.inr (Nat.succ_pos _)
  rcases poolInv_runOps hinit ops with h | h
  · exact Or.inr ⟨h, by simp [activeKey, h]⟩
  · exact Or.inl h

/-- Witness for C2 at a concrete one-key pool and a shift operation. -/
theorem runOps_cursor_valid_or_empty_witness :
    (runOps ⟨["a"], 0⟩ [PoolOp.shiftIf (some "a")]).cursor
        < (runOps ⟨["a"], 0⟩ [PoolOp.shiftIf (some "a")]).keys.length ∨
      ((runOps ⟨["a"], 0⟩ [PoolOp.shiftIf (some "a")]).keys = [] ∧
        activeKey (runOps ⟨["a"], 0⟩ [PoolOp.shiftIf (some "a")]) = none) :=
  runOps_cursor_valid_or_empty ["a"] [PoolOp.shiftIf (some "a")]

/-! ## C9: cursor reset on removal; empty pools stay empty -/

theorem applyOp_empty (c : Nat) (op : PoolOp) : applyOp ⟨[], c⟩ op = ⟨[], c⟩ := by
  cases op with
  | peek => rfl
  | removeIf k =>
      simp only [applyOp, removeIfEqual]
      split
      · simp [removeActiveKey]
      · rfl
  | shiftIf k =>
      simp only [applyOp, shiftIfEqual]
      split
      · simp [shiftActiveKey]
      · rfl

theorem runOps_empty (c : Nat) (ops : List PoolOp) : runOps ⟨[], c⟩ ops = ⟨[], c⟩ := by
  induction ops with
  | nil => rfl
  | cons op rest ih => simpa [runOps, applyOp_empty] using ih

/-- C9 -- Removal and the cursor: when `remove_active_key` removes the
active key of a valid pool, the cursor is reset to 0 exactly when it fell
out of the shortened sequence (cursor at or past the new length), and kept
otherwise; afterwards peek yields the key at the resulting cursor when the
pool stayed non-empty, and `none` once it is empty.  A one-key pool
becomes empty under a matching `remove_active_key_if_equal`, and an empty
pool yields `none` under every further operation sequence. -/
theorem removeActiveKey_cursor_reset (s : KeyPool) (h : s.cursor < s.keys.length) :
    removeIfEqual s (activeKey s) = removeActiveKey s ∧
      (removeActiveKey s).cursor
        = (if s.keys.length - 1 ≤ s.cursor then 0 else s.cursor) ∧
      ((removeActiveKey s).keys = [] → activeKey (removeActiveKey s) = none) ∧
      ((removeActiveKey s).keys ≠ [] →
        ∃ c, activeKey (removeActiveKey s)
          = some c ∧ (removeActiveKey s).keys[(removeActiveKey s).cursor]? = some c) ∧
      (∀ k : String, removeIfEqual ⟨[k], 0⟩ (some k) = ⟨[], 0⟩) ∧
      (∀ ops : List PoolOp, activeKey (runOps ⟨[], 0⟩ ops) = none) := by
  have hne : s.keys ≠ [] := List.ne_nil_of_length_pos (by omega)
  refine ⟨by simp [removeIfEqual], ?_, ?_, ?_, ?_, ?_⟩
  · unfold removeActiveKey
    rw [if_neg hne]
    simp [List.length_eraseIdx, h]
  · intro he
    simp [activeKey, he]
  · intro hne2
    rcases poolInv_removeActiveKey (Or.inr h) with h0 | hlt
    · exact absurd h0 hne2
    · exact ⟨_, List.getElem?_eq_getElem hlt, List.getElem?_eq_getElem hlt⟩
  · intro k
    simp [removeIfEqual, activeKey, removeActiveKey]
  · intro ops
    rw [runOps_empty]
    simp [activeKey]

/-- Witness for C9 at the pool ["a", "b"] with cursor 1: removing the
active key "b" shortens the pool to ["a"], the cursor (1, at the new
length) is reset to 0, and peek now yields "a". -/
theorem removeActiveKey_cursor_reset_witness :
    (removeActiveKey ⟨["a", "b"], 1⟩).cursor = 0 ∧
      removeIfEqual ⟨["k"], 0⟩ (some "k") = ⟨[], 0⟩ := by
  have h := removeActiveKey_cursor_reset ⟨["a", "b"], 1⟩ (by decide)
  exact ⟨by simpa using h.2.1, h.2.2.2.2.1 "k"⟩

/-! ## C7: pool mutation is driven only by statuses 401 and 429 -/

/-- C7 -- After an attempt resolves, the pool is mutated only on status
401 (remove-if with the remembered key) or 429 (shift-if with the
remembered key); every other status and any transport error leaves the
pool unchanged. -/
theorem inspectResponse_mutates_only_401_429 {ε : Type} (s : KeyPool)
    (curKey : Option String) (e : ε) (status : Nat) :
    inspectResponse s curKey (.error e) = s ∧
      (status ≠ 401 → status ≠ 429 →
        inspectResponse s curKey (Except.ok status : Except ε Nat) = s) ∧
      inspectResponse s curKey (Except.ok 401 : Except ε Nat) = removeIfEqual s curKey ∧
      inspectResponse s curKey (Except.ok 429 : Except ε Nat) = shiftIfEqual s curKey := by
  refine ⟨rfl, ?_, rfl, rfl⟩
  intro h401 h429
  simp [inspectResponse, h401, h429]

/-- Witness for C7: a 500 response on a concrete pool leaves it unchanged,
while 401 removes the remembered active key. -/
theorem inspectResponse_mutates_only_401_429_witness :
    inspectResponse (ε := Unit) ⟨["a", "b"], 0⟩ (some "a") (.ok 500) = ⟨["a", "b"], 0⟩ ∧
      inspectResponse (ε := Unit) ⟨["a", "b"], 0⟩ (some "a") (.ok 401) = ⟨["b"], 0⟩ := by
  have h := inspectResponse_mutates_only_401_429 (ε := Unit) ⟨["a", "b"], 0⟩ (some "a") () 500
  refine ⟨h.2.1 (by decide) (by decide), ?_⟩
  rw [h.2.2.1]
  decide

/-! ## C3: retry decisions -/

/-- C3 -- Retry decisions: a success (2xx) response stops retrying
regardless of the attempts budget; an exhausted budget (attempts = 0)
stops on every result; otherwise the policy retries with attempts
decremented by one and the backoff advanced; transport errors are decided
exactly like non-success responses; and a policy with attempts = 3 grants
exactly 3 retries under persistently retryable results, i.e. 4 total
attempts. -/
theorem retryDecision_spec {B ε : Type} (nextB : B → B) (p : WithBackoffPolicy B)
    (status : Nat) (e : ε) (res : Except ε Nat) (b : B) :
    (isSuccess status = true →
      retryDecision nextB p (Except.ok status : Except ε Nat) = none) ∧
      (p.attempts = 0 → retryDecision nextB p res = none) ∧
      (p.attempts ≠ 0 → isSuccess status = false →
        retryDecision nextB p (Except.ok status : Except ε Nat)
          = some ⟨p.attempts - 1, nextB p.backoff⟩) ∧
      (p.attempts ≠ 0 →
        retryDecision nextB p (.error e) = some ⟨p.attempts - 1, nextB p.backoff⟩) ∧
      (isSuccess status = false →
        retryDecision nextB p (.error e)
          = retryDecision nextB p (Except.ok status : Except ε Nat)) ∧
      (isSuccess status = false →
        retryDecision nextB (⟨3, b⟩ : WithBackoffPolicy B)
            (Except.ok status : Except ε Nat) = some ⟨2, nextB b⟩ ∧
          retryDecision nextB (⟨2, nextB b⟩ : WithBackoffPolicy B)
            (Except.ok status : Except ε Nat) = some ⟨1, nextB (nextB b)⟩ ∧
          retryDecision nextB (⟨1, nextB (nextB b)⟩ : WithBackoffPolicy B)
            (Except.ok status : Except ε Nat) = some ⟨0, nextB (nextB (nextB b))⟩ ∧
          retryDecision nextB (⟨0, nextB (nextB (nextB b))⟩ : WithBackoffPolicy B)
            (Except.ok status : Except ε Nat) = none) := by
  refine ⟨?_, ?_, ?_, ?_, ?_, ?_⟩
  · intro hs
    simp [retryDecision, hs]
  · intro h0
    cases res with
    | ok st => simp [retryDecision, h0]
    | error e2 => simp [retryDecision, h0]
  · intro h0 hs
    simp [retryDecision, hs, h0]
  · intro h0
    simp [retryDecision, h0]
  · intro hs
    simp [retryDecision, hs]
  · intro hs
    refine ⟨?_, ?_, ?_, ?_⟩ <;> simp [retryDecision, hs]

/-- Witness for C3: with a concrete backoff step (successor on Nat) and a
persistently failing status 503, a fresh attempts = 3 policy makes a retry
decision 3 → 2, an exhausted one stops, and a 200 response stops at
once. -/
theorem retryDecision_spec_witness :
    retryDecision (ε := Unit) (fun n : Nat => n + 1) ⟨3, 0⟩ (Except.ok 503) = some ⟨2, 1⟩ ∧
      retryDecision (ε := Unit) (fun n : Nat => n + 1) ⟨0, 3⟩ (Except.ok 503) = none ∧
      retryDecision (ε := Unit) (fun n : Nat => n + 1) ⟨3, 0⟩ (Except.ok 200) = none := by
  have h := retryDecision_spec (ε := Unit) (fun n : Nat => n + 1) ⟨3, 0⟩ 503 ()
    (Except.ok 503) 0
  have h0 := retryDecision_spec (ε := Unit) (fun n : Nat => n + 1) ⟨0, 3⟩ 503 ()
    (Except.ok 503) 0
  have hs := retryDecision_spec (ε := Unit) (fun n : Nat => n + 1) ⟨3, 0⟩ 200 ()
    (Except.ok 200) 0
  exact ⟨(h.2.2.2.2.2 (by decide)).1, h0.2.1 rfl, hs.1 (by decide)⟩

/-! ## C4: the exponential backoff delay -/

/-- C4, counterexample -- the claim says the zero-jitter delay is
`min(minimum * 2^i, maximum)` for every state, but `2_u32.saturating_pow`
caps the multiplier at `2^32 - 1`: with minimum = 1 ns, maximum = 10 s and
iteration 32 the code computes 2^32 - 1 ns while the claimed formula gives
2^32 ns. -/
theorem expBackoff_formula_counterexample :
    ExponentialBackoff.nextTimeout ⟨1, 10000000000, 0, 32⟩ 0 = 4294967295 ∧
      min (1 * 2 ^ 32) 10000000000 = 4294967296 ∧
      ExponentialBackoff.nextTimeout ⟨1, 10000000000, 0, 32⟩ 0
        ≠ min ((1 : Nat) * 2 ^ (⟨1, 10000000000, 0, 32⟩ :
            ExponentialBackoff).iterations) 10000000000 := by
  refine ⟨by decide, by decide, by decide⟩

/-- C4, amended -- for every backoff state with zero jitter fraction (and
a maximum that is a representable duration), the delay of one advance is
`min(minimum * s, maximum)` where `s = min(2^iterations, 2^32 - 1)` is the
u32-saturating power of two, and the iteration count increases by exactly
one (modulo 2^32, the u32 wrap); in particular with minimum = 1 s,
maximum = 8 s, jitter = 0 the successive delays at iterations 0,1,2,3,4
are 1 s, 2 s, 4 s, 8 s, 8 s. -/
theorem expBackoff_zero_jitter_delay (b : ExponentialBackoff) (raw : Nat)
    (hj : b.jitter = 0) (hmax : b.max ≤ maxDurNanos) :
    b.nextTimeout raw = min (b.min * satPow2 b.iterations) b.max ∧
      b.nextState.iterations = (b.iterations + 1) % 2 ^ 32 ∧
      (ExponentialBackoff.nextTimeout ⟨1000000000, 8000000000, 0, 0⟩ 0 = 1000000000 ∧
        ExponentialBackoff.nextTimeout ⟨1000000000, 8000000000, 0, 1⟩ 0 = 2000000000 ∧
        ExponentialBackoff.nextTimeout ⟨1000000000, 8000000000, 0, 2⟩ 0 = 4000000000 ∧
        ExponentialBackoff.nextTimeout ⟨1000000000, 8000000000, 0, 3⟩ 0 = 8000000000 ∧
        ExponentialBackoff.nextTimeout ⟨1000000000, 8000000000, 0, 4⟩ 0 = 8000000000) := by
  refine ⟨?_, rfl, by decide, by decide, by decide, by decide, by decide⟩
  unfold ExponentialBackoff.nextTimeout ExponentialBackoff.jitterDur ExponentialBackoff.base
  rw [if_pos hj, Nat.add_zero]
  unfold durCheckedMul
  by_cases hc : b.min * satPow2 b.iterations ≤ maxDurNanos
  · rw [if_pos hc]
    rfl
  · rw [if_neg hc]
    have hge : b.max ≤ b.min * satPow2 b.iterations := by omega
    rw [Option.getD_none]
    omega

/-- Witness for C4 (amended) at minimum = 1 s, maximum = 8 s, jitter = 0,
iteration 3: the delay is min(1 s * 8, 8 s) = 8 s. -/
theorem expBackoff_zero_jitter_delay_witness :
    ExponentialBackoff.nextTimeout ⟨1000000000, 8000000000, 0, 3⟩ 0
        = min (1000000000 * satPow2 3) 8000000000 ∧
      (ExponentialBackoff.nextState ⟨1000000000, 8000000000, 0, 3⟩).iterations = 4 := by
  have h := expBackoff_zero_jitter_delay ⟨1000000000, 8000000000, 0, 3⟩ 0 rfl (by decide)
  exact ⟨h.1, h.2.1⟩

/-! ## C8: caller-supplied credential headers -/

/-- C8, counterexample -- the claim says any request that carries an
authorization header is forwarded with that value unchanged and without
consulting the pool, but `extract_api_key` rejects a header value without
a space (splitn yields one part, not two), after which `call` peeks the
pool and overwrites the header: with pool ["K"] and header value "abc" the
forwarded request carries "Bearer K", not "abc". -/
theorem authorize_malformed_header_counterexample :
    (authorizeCall ⟨["K"], 0⟩
        (⟨"GET", "/", 11, [("authorization", "abc")], ()⟩ : HttpRequest Unit)).1.headers
        = [("authorization", "Bearer K")] ∧
      (authorizeCall ⟨["K"], 0⟩
        (⟨"GET", "/", 11, [("authorization", "abc")], ()⟩ : HttpRequest Unit)).1
        ≠ (⟨"GET", "/", 11, [("authorization", "abc")], ()⟩ : HttpRequest Unit) := by
  refine ⟨by decide, by decide⟩

/-- C8, amended -- for every inbound request whose authorization header is
present and well-formed (two space-separated parts, as in "Bearer key"),
`Authorize::call` forwards the request completely unchanged, never peeks
or injects from the pool (the result is the same for every pool state),
and the remembered credential is the caller-supplied key (the part after
the first space); injection from the pool happens exactly when no key can
be extracted — header absent or not of the two-part form — in which case
an active pool key is inserted as "Bearer key" and remembered, and an
empty pool leaves the request unchanged with nothing remembered. -/
theorem authorize_wellformed_header_preserved {β : Type} (pool pool2 : KeyPool)
    (r : HttpRequest β) (v : String)
    (hv : headerGet "authorization" r.headers = some v)
    (hp : (splitFirstSpace v).length = 2) :
    authorizeCall pool r = (r, (splitFirstSpace v)[1]?) ∧
      authorizeCall pool r = authorizeCall pool2 r ∧
      (∀ r2 : HttpRequest β, extractApiKey r2 = none → activeKey pool = none →
        authorizeCall pool r2 = (r2, none)) ∧
      (∀ (r2 : HttpRequest β) (key : String),
        extractApiKey r2 = none → activeKey pool = some key →
        authorizeCall pool r2
          = ({ r2 with
                headers := headerInsert "authorization" ("Bearer " ++ key) r2.headers },
              some key)) := by
  have hx : extractApiKey r = (splitFirstSpace v)[1]? := by
    simp [extractApiKey, hv, hp]
  obtain ⟨k, hk⟩ : ∃ k, (splitFirstSpace v)[1]? = some k :=
    ⟨_, List.getElem?_eq_getElem (by omega)⟩
  refine ⟨?_, ?_, ?_, ?_⟩
  · simp [authorizeCall, hx, hk]
  · simp [authorizeCall, hx, hk]
  · intro r2 hx2 hpool
    simp [authorizeCall, hx2, hpool]
  · intro r2 key hx2 hpool
    simp [authorizeCall, hx2, hpool]

/-- Witness for C8 (amended): a request with the well-formed header
"Bearer xyz" passes through two different pools untouched, with "xyz"
remembered. -/
theorem authorize_wellformed_header_preserved_witness :
    authorizeCall ⟨["K"], 0⟩
        (⟨"GET", "/", 11, [("authorization", "Bearer xyz")], ()⟩ : HttpRequest Unit)
        = (⟨"GET", "/", 11, [("authorization", "Bearer xyz")], ()⟩, some "xyz") := by
  have h := authorize_wellformed_header_preserved (β := Unit) ⟨["K"], 0⟩ ⟨[], 5⟩
    ⟨"GET", "/", 11, [("authorization", "Bearer xyz")], ()⟩ "Bearer xyz"
    (by decide) (by decide)
  exact h.1.trans (by decide)

/-! ## C5: request cloning strips the credential header -/

theorem headerGet_filter_out (name : String) (hs : List (String × String)) :
    headerGet name (hs.filter (fun p => p.1 != name)) = none := by
  induction hs with
  | nil => rfl
  | cons h t ih =>
      by_cases hk : h.1 = name
      · simp [List.filter_cons, hk, ih]
      · simp [headerGet, List.filter_cons, List.find?, hk, ih]

/-- C5, counterexample -- the claim says every field other than the
credential header is unchanged, but `Request::builder()` starts from
default parts and `clone_request` never copies the version: a request
with version HTTP/2 (code 20) is cloned to version HTTP/1.1 (code 11). -/
theorem cloneRequest_version_counterexample :
    (cloneRequest (⟨"GET", "/", 20, [], ()⟩ : HttpRequest Unit)).version = 11 ∧
      (⟨"GET", "/", 20, [], ()⟩ : HttpRequest Unit).version = 20 ∧
      cloneRequest (⟨"GET", "/", 20, [], ()⟩ : HttpRequest Unit)
        ≠ (⟨"GET", "/", 20, [], ()⟩ : HttpRequest Unit) := by
  refine ⟨rfl, rfl, by decide⟩

/-- C5, amended -- `clone_request` yields a request without the
authorization header; method, target, body, and the headers other than the
authorization header (in order) are unchanged from the original, while the
version is reset to the builder default HTTP/1.1 (and extensions, not
modelled, are likewise not copied). -/
theorem cloneRequest_strips_authorization {β : Type} (r : HttpRequest β) :
    headerGet "authorization" (cloneRequest r).headers = none ∧
      (cloneRequest r).method = r.method ∧
      (cloneRequest r).uri = r.uri ∧
      (cloneRequest r).body = r.body ∧
      (cloneRequest r).headers = r.headers.filter (fun p => p.1 != "authorization") ∧
      (cloneRequest r).version = 11 :=
  ⟨headerGet_filter_out "authorization" r.headers, rfl, rfl, rfl, rfl, rfl⟩

/-- Witness for C5 (amended) at a concrete request carrying an
authorization header and an accept header: the clone drops the former and
keeps the latter. -/
theorem cloneRequest_strips_authorization_witness :
    headerGet "authorization"
        (cloneRequest (⟨"GET", "/", 11,
          [("authorization", "Bearer k"), ("accept", "json")], ()⟩ :
            HttpRequest Unit)).headers = none ∧
      (cloneRequest (⟨"GET", "/", 11,
          [("authorization", "Bearer k"), ("accept", "json")], ()⟩ :
            HttpRequest Unit)).headers = [("accept", "json")] := by
  have h := cloneRequest_strips_authorization
    (⟨"GET", "/", 11, [("authorization", "Bearer k"), ("accept", "json")], ()⟩ :
      HttpRequest Unit)
  exact ⟨h.1, h.2.2.2.2.1.trans (by decide)⟩

/-! ## C6: a failed body read never reaches the inner pipeline -/

/-- C6, counterexample -- the claim says a failed body read surfaces an
error to the caller; the code instead calls `unwrap` on the read result,
so the task panics and no error value is ever returned: at a concrete
request whose body read fails, the outcome is `panicked` and differs from
every returned error (with error type `Unit`, `returned (error ())` is the
only candidate). -/
theorem readRequestBody_panics_counterexample :
    readRequestBodyCall (⟨"GET", "/", 11, [], ()⟩ : HttpRequest Unit)
        (Except.error ()) (fun _ => (Except.ok () : Except Unit Unit))
        = CallOutcome.panicked ∧
      readRequestBodyCall (⟨"GET", "/", 11, [], ()⟩ : HttpRequest Unit)
        (Except.error ()) (fun _ => (Except.ok () : Except Unit Unit))
        ≠ CallOutcome.returned (Except.error ()) :=
  ⟨rfl, fun h => CallOutcome.noConfusion h⟩

/-- C6, amended -- when the inbound streaming body cannot be fully read,
the buffering stage makes the request fail immediately by panicking on the
`unwrap` of the read result (the failure is not returned as an error
value); the inner pipeline is never invoked — the outcome is `panicked`
whatever the inner service would do — so no retry can be attempted; only a
successful full read proceeds, forwarding the request with the buffered
body to the inner service. -/
theorem readRequestBody_error_panics {ε ρ : Type} (req : HttpRequest Unit)
    (inner inner2 : HttpRequest ByteBody → Except ε ρ) (bs : List Nat) :
    readRequestBodyCall req (Except.error ()) inner = CallOutcome.panicked ∧
      readRequestBodyCall req (Except.error ()) inner
        = readRequestBodyCall req (Except.error ()) inner2 ∧
      readRequestBodyCall req (Except.ok bs) inner
        = CallOutcome.returned
            (inner (HttpRequest.mk req.method req.uri req.version req.headers ⟨bs⟩)) :=
  ⟨rfl, rfl, rfl⟩

/-- Witness for C6 (amended): a concrete failed read panics the call. -/
theorem readRequestBody_error_panics_witness :
    readRequestBodyCall (⟨"GET", "/", 11, [], ()⟩ : HttpRequest Unit)
        (Except.error ()) (fun _ => (Except.ok () : Except Unit Unit))
        = CallOutcome.panicked :=
  (readRequestBody_error_panics (⟨"GET", "/", 11, [], ()⟩ : HttpRequest Unit)
    (fun _ => (Except.ok () : Except Unit Unit))
    (fun _ => (Except.ok () : Except Unit Unit)) []).1

/-! ## C10: the buffered body as a stream -/

theorem byteBody_pollN_eq (b : ByteBody) (n : Nat) :
    b.pollN n = some (Except.ok b.data) := by
  induction n with
  | zero => rfl
  | succ n ih => exact ih

/-- C10 -- A buffered `ByteBody` reports a size hint exactly equal to its
byte length, and every one of its consecutive `poll_data` calls yields the
complete original byte content; a poll never returns `None`
(end-of-stream), so the body never terminates as a stream and a consumer
must rely on the exact size hint to find the end. -/
theorem byteBody_exact_hint_and_endless_stream (b : ByteBody) (n : Nat) :
    b.sizeHint = b.data.length ∧
      b.pollN n = some (Except.ok b.data) ∧
      b.pollN n ≠ none ∧
      b.pollDataStep.2 = b :=
  ⟨rfl, byteBody_pollN_eq b n, by rw [byteBody_pollN_eq b n]; exact Option.some_ne_none _,
    rfl⟩

/-- Witness for C10 at the two-byte body [7, 8]: exact size hint 2 and the
sixth poll still yields the full content. -/
theorem byteBody_exact_hint_and_endless_stream_witness :
    ByteBody.sizeHint ⟨[7, 8]⟩ = 2 ∧
      ByteBody.pollN ⟨[7, 8]⟩ 5 = some (Except.ok [7, 8]) := by
  have h := byteBody_exact_hint_and_endless_stream ⟨[7, 8]⟩ 5
  exact ⟨h.1, h.2.1⟩

end Proxy
